/-
Verification of the weaver FileReader agent core.

Shallow embedding of the orchestration core of `src/file_reader.rs`,
`src/constants.rs` and `src/tools/filesystem.rs`:
the path sandbox, the retry backoff policy, the delegation scheduler,
the conversation loop, the delegate-argument parsing, and the
line-range file reader.  Machine integers (`u32`, `u64`, `usize`) are
modelled as `Nat` with explicit `% 2 ^ w` at the points where the Rust
code truncates or wraps.  Filesystem and network effects are modelled
by explicit oracles (canonicalization function, backend response
stream, child-conversation outcome function, completion order).
-/
import Mathlib

namespace Weaver

/-! ## Constants (src/constants.rs) -/

/-- Maximum number of tool-calling loops before giving up (src/constants.rs:12). -/
def MAX_TOOL_ITERATIONS : Nat := 60

/-- Maximum depth of recursive delegation for FileReader agents (src/constants.rs:15). -/
def DEFAULT_MAX_SUBDELEGATIONS : Nat := 2

/-- Default number of delegate subtasks to run in parallel (src/constants.rs:19). -/
def DEFAULT_PARALLEL_DELEGATIONS : Nat := 4

/-- Hard ceiling on delegate subtask parallelism (src/constants.rs:22). -/
def MAX_PARALLEL_DELEGATIONS : Nat := 8

/-- Base delay (milliseconds) for exponential backoff (src/constants.rs:29). -/
def RETRY_BASE_DELAY_MS : Nat := 250

/-- Maximum jitter (milliseconds) added to each backoff sleep (src/constants.rs:32). -/
def RETRY_MAX_JITTER_MS : Nat := 250

/-- Maximum backoff exponent (src/constants.rs:35). -/
def RETRY_MAX_EXP : Nat := 6

/-! ## Backoff policy (FileReader::sleep_backoff, src/file_reader.rs:353-363)

The Rust code receives `iteration : usize`, computes
`exp = (iteration as u32).min(RETRY_MAX_EXP)`,
`multiplier = 1u64.checked_shl(exp)` (never `None` since `exp ≤ 6`),
`base_delay = RETRY_BASE_DELAY_MS.saturating_mul(multiplier).min(60_000)`
(never saturates since the product is at most `250 * 64`), and
`jitter = (iteration as u64 * 137) % (RETRY_MAX_JITTER_MS + 1)`.
The `as u32` cast truncates modulo `2 ^ 32`; the `u64` product is
reduced modulo `2 ^ 64` (release-mode wrapping semantics). -/

/-- Milliseconds slept by `sleep_backoff` for a given iteration. -/
def sleep_backoff_delay_ms (iteration : Nat) : Nat :=
  let exp := min (iteration % 2 ^ 32) RETRY_MAX_EXP
  let multiplier := 2 ^ exp
  let base_delay := min (RETRY_BASE_DELAY_MS * multiplier) 60000
  let jitter := ((iteration % 2 ^ 64) * 137) % 2 ^ 64 % (RETRY_MAX_JITTER_MS + 1)
  base_delay + jitter

/-- Claim C5, as frozen: the formula with mathematical naturals.  It fails at
`iteration = 2 ^ 32`, where the code truncates `iteration as u32` to `0` and so
uses exponent `0` (base 250 ms) while the formula uses exponent `6` (base 16000 ms). -/
theorem sleep_backoff_truncates_at_two_pow_32 :
    sleep_backoff_delay_ms (2 ^ 32) ≠
      min (RETRY_BASE_DELAY_MS * 2 ^ (min (2 ^ 32) RETRY_MAX_EXP)) 60000 +
        (2 ^ 32 * 137) % (RETRY_MAX_JITTER_MS + 1) := by
  decide

/-- Claim C5 (amended): for every iteration below `2 ^ 32` (so that the
`as u32` cast is lossless and the `u64` jitter product cannot wrap), the
backoff delay equals
`min (250 * 2 ^ min iteration 6) 60000 + (iteration * 137) % 251`,
deterministically. -/
theorem sleep_backoff_delay_ms_formula (iteration : Nat) (h : iteration < 2 ^ 32) :
    sleep_backoff_delay_ms iteration =
      min (250 * 2 ^ min iteration 6) 60000 + (iteration * 137) % 251 := by
  have h64 : iteration < 2 ^ 64 := lt_of_lt_of_le h (by norm_num)
  have hmul : iteration * 137 < 2 ^ 64 := by
    calc iteration * 137 < 2 ^ 32 * 137 := by
          exact Nat.mul_lt_mul_of_lt_of_le h (le_refl 137) (by norm_num)
      _ < 2 ^ 64 := by norm_num
  unfold sleep_backoff_delay_ms RETRY_BASE_DELAY_MS RETRY_MAX_EXP RETRY_MAX_JITTER_MS
  simp only [Nat.mod_eq_of_lt h, Nat.mod_eq_of_lt h64, Nat.mod_eq_of_lt hmul]

/-- Witness for the amended C5 at iteration 7: `min (250 * 2 ^ 6) 60000 = 16000`
and `7 * 137 % 251 = 206`. -/
theorem sleep_backoff_delay_ms_formula_witness :
    sleep_backoff_delay_ms 7 = 16206 := by
  have := sleep_backoff_delay_ms_formula 7 (by norm_num)
  simpa using this

/-- Claim C6, as frozen: it asserts `delay 7 = delay 6`.  The exponent does
clamp at 6 (both have base 16000 ms) but the jitter differs
(`7 * 137 % 251 = 206` vs `6 * 137 % 251 = 69`), so the two delays differ. -/
theorem sleep_backoff_delay_seven_ne_six :
    sleep_backoff_delay_ms 7 ≠ sleep_backoff_delay_ms 6 := by
  decide

/-- Claim C6 (amended): `delay 0 = 250 + 0`, `delay 1 = 500 + 137`, and
`delay 7` and `delay 6` share the clamped base `16000` but differ in jitter:
`delay 7 = 16000 + 206` while `delay 6 = 16000 + 69`. -/
theorem sleep_backoff_delay_table :
    sleep_backoff_delay_ms 0 = 250 + 0 ∧
    sleep_backoff_delay_ms 1 = 500 + 137 ∧
    sleep_backoff_delay_ms 7 = 16000 + 206 ∧
    sleep_backoff_delay_ms 6 = 16000 + 69 := by
  refine ⟨?_, ?_, ?_, ?_⟩ <;> decide

/-! ## Path sandbox (FileReader::resolve_path, src/file_reader.rs:385-399)

Paths are modelled component-wise, mirroring `std::path::Path`: an
absoluteness flag plus a list of components.  The filesystem is an
oracle supplying `Path::canonicalize`: it returns `some` (the canonical
absolute path, with symlinks and dot segments resolved) exactly for
paths that denote an existing filesystem entry, and `none` otherwise
(canonicalization requires existence).  Error messages are modelled
without the interpolated path text. -/

/-- Component-wise view of a filesystem path. -/
structure SPath where
  absolute : Bool
  components : List String
deriving DecidableEq

/-- Rust `PathBuf::join`: an absolute argument replaces the base, a relative
one is appended. -/
def SPath.join (base p : SPath) : SPath :=
  if p.absolute then p else ⟨base.absolute, base.components ++ p.components⟩

/-- Rust `Path::starts_with`: component-wise prefix comparison (the root
component counts, hence the absoluteness flags must agree). -/
def SPath.startsWith (p base : SPath) : Bool :=
  p.absolute == base.absolute && base.components.isPrefixOf p.components

/-- Filesystem oracle: the behaviour of `Path::canonicalize`. -/
structure FS where
  canonical : SPath → Option SPath

/-- FileReader::resolve_path: join relative paths to the root, canonicalize,
and reject canonical paths that do not start with the root. -/
def resolve_path (fs : FS) (root : SPath) (rel : SPath) : Except String SPath :=
  let candidate := if rel.absolute then rel else root.join rel
  match fs.canonical candidate with
  | none => .error "failed to canonicalize resolved path"
  | some canonical =>
    if ¬ canonical.startsWith root then .error "path escapes workspace root"
    else .ok canonical

/-- Reduction of `resolve_path` with the `candidate` binding inlined. -/
lemma resolve_path_eq (fs : FS) (root p : SPath) :
    resolve_path fs root p =
      match fs.canonical (if p.absolute then p else root.join p) with
      | none => .error "failed to canonicalize resolved path"
      | some canonical =>
        if ¬ canonical.startsWith root then .error "path escapes workspace root"
        else .ok canonical := rfl

/-- Claim C1: `resolve_path` succeeds exactly when the candidate path
(relative paths joined to the root first, absolute paths as given)
canonicalizes to an existing entry whose canonical form lies inside the
workspace root; on success it returns that canonical path (which has the
root as a prefix), and when the canonical path falls outside the root it
fails with the escapes-workspace error. -/
theorem resolve_path_spec (fs : FS) (root p : SPath) :
    (∀ c, resolve_path fs root p = .ok c ↔
      fs.canonical (if p.absolute then p else root.join p) = some c ∧
        c.startsWith root = true) ∧
    (∀ c, fs.canonical (if p.absolute then p else root.join p) = some c →
      c.startsWith root = false →
      resolve_path fs root p = .error "path escapes workspace root") := by
  constructor
  · intro c
    rcases hc : fs.canonical (if p.absolute then p else root.join p) with _ | c0
    · rw [resolve_path_eq, hc]
      simp
    · rw [resolve_path_eq, hc]
      by_cases hs : c0.startsWith root
      · simp only [hs, not_true_eq_false, if_false, Except.ok.injEq, Option.some.injEq]
        constructor
        · intro h
          exact ⟨h, h ▸ hs⟩
        · rintro ⟨h, _⟩
          exact h
      · simp only [hs, Bool.false_eq_true, not_false_eq_true, if_true, Option.some.injEq]
        constructor
        · intro h
          exact absurd h (by simp)
        · rintro ⟨rfl, hh⟩
          exact absurd hh (by simp [hs])
  · intro c hc hs
    rw [resolve_path_eq, hc]
    simp [hs]

/-- Witness for C1: a one-entry filesystem in which the candidate path
canonicalizes inside the root, so resolution succeeds with the canonical
path. -/
theorem resolve_path_spec_witness :
    resolve_path
      ⟨fun p => if p = ⟨true, ["ws", "sub"]⟩ then some ⟨true, ["ws", "real"]⟩ else none⟩
      ⟨true, ["ws"]⟩ ⟨false, ["sub"]⟩ = .ok ⟨true, ["ws", "real"]⟩ := by
  exact ((resolve_path_spec
    ⟨fun p => if p = ⟨true, ["ws", "sub"]⟩ then some ⟨true, ["ws", "real"]⟩ else none⟩
    ⟨true, ["ws"]⟩ ⟨false, ["sub"]⟩).1 ⟨true, ["ws", "real"]⟩).mpr ⟨by decide, by decide⟩

/-! ## Delegation scheduler (FileReader::run_delegate_batch, src/file_reader.rs:277-351)

The scheduler spawns one child conversation per subtask, at most `limit`
of them in flight, and stores each completion at the completing task's
original index.  Two effects are modelled by oracles: `outcome i` is the
result of the child conversation for subtask `i` (the value of
`child.run_conversation(...)`), and `order` is the sequence of original
indices in which `join_next` delivers completions.  `batchLoop` mirrors
the `while active > 0` loop; alongside the `results` slots it reports
the peak number of simultaneously in-flight children and the number of
refill spawns, which the Rust code does not materialise but which the
bounded-concurrency claim is about.  An `order` too short to drain the
in-flight set has no Rust counterpart (`join_next` always returns while
tasks run); the model returns `none` there. -/

/-- Status carried by one subtask result entry. -/
inductive SubtaskStatus where
  | ok
  | error
deriving DecidableEq

/-- One entry of the delegation batch `results` array: the original subtask
text, the ok/error status, and the `content` (ok) or `error` (error) payload. -/
structure SubtaskResult where
  subtask : String
  status : SubtaskStatus
  payload : String
deriving DecidableEq

/-- Build the JSON entry recorded for one completed subtask
(src/file_reader.rs:309-320). -/
def mkEntry (subtask : String) (outcome : Except String String) : SubtaskResult :=
  match outcome with
  | .ok content => ⟨subtask, .ok, content⟩
  | .error err => ⟨subtask, .error, err⟩

/-- Payload of a successful `delegate_subtask` call
(src/file_reader.rs:344-350; the constant `type` field is omitted). -/
structure BatchResult where
  depth : Nat
  requested : Nat
  max_concurrency : Nat
  results : List SubtaskResult
deriving DecidableEq

/-- Collect a list of optionals, failing on any `none`; models the
`results.iter().any(|entry| entry.is_none())` guard plus the final
`collect` (src/file_reader.rs:335-342). -/
def allSome {α : Type} : List (Option α) → Option (List α)
  | [] => some []
  | none :: _ => none
  | some a :: rest => (allSome rest).map (a :: ·)

/-- The `while active > 0` completion loop (src/file_reader.rs:304-333).
One element of `order` is consumed per `join_next`; the completion at
index `i` stores `entry i` into slot `i`; afterwards the next pending
subtask, if any, is spawned.  Returns the final slots, the peak
in-flight count, and the number of refill spawns. -/
def batchLoop (entry : Nat → SubtaskResult) :
    List Nat → List (Nat × String) → Nat → List (Option SubtaskResult) →
    Option (List (Option SubtaskResult) × Nat × Nat)
  | _, _, 0, results => some (results, 0, 0)
  | [], _, _ + 1, _ => none
  | i :: order, pending, active + 1, results =>
    let results := results.set i (some (entry i))
    match pending with
    | [] =>
      match batchLoop entry order [] active results with
      | none => none
      | some (r, peak, spawns) => some (r, max (active + 1) peak, spawns)
    | _ :: rest =>
      match batchLoop entry order rest (active + 1) results with
      | none => none
      | some (r, peak, spawns) => some (r, max (active + 1) peak, spawns + 1)

/-- FileReader::run_delegate_batch: reject an empty batch, clamp the
concurrency limit, launch the first `limit` subtasks, run the completion
loop, and assemble the batch payload. -/
def run_delegate_batch (depth : Nat) (subtasks : List String) (max_concurrency : Nat)
    (outcome : Nat → Except String String) (order : List Nat) : Except String BatchResult :=
  let total := subtasks.length
  if total = 0 then .error "delegate_subtask requires at least one subtask"
  else
    let limit := min (min (max max_concurrency 1) MAX_PARALLEL_DELEGATIONS) total
    let enumerated := subtasks.enum
    let launched := enumerated.take limit
    let pending := enumerated.drop limit
    let entry := fun i => mkEntry (subtasks.getD i "") (outcome i)
    match batchLoop entry order pending launched.length (List.replicate total none) with
    | none => .error "delegate subtask panicked"
    | some (results, _, _) =>
      match allSome results with
      | none => .error "missing delegate results after execution"
      | some collected => .ok ⟨depth + 1, collected.length, limit, collected⟩

/-- Peak number of simultaneously in-flight children during the same run of
`run_delegate_batch` (read off the instrumented completion loop). -/
def run_delegate_batch_peak (subtasks : List String) (max_concurrency : Nat)
    (outcome : Nat → Except String String) (order : List Nat) : Option Nat :=
  let total := subtasks.length
  if total = 0 then none
  else
    let limit := min (min (max max_concurrency 1) MAX_PARALLEL_DELEGATIONS) total
    let enumerated := subtasks.enum
    let launched := enumerated.take limit
    let pending := enumerated.drop limit
    let entry := fun i => mkEntry (subtasks.getD i "") (outcome i)
    match batchLoop entry order pending launched.length (List.replicate total none) with
    | none => none
    | some (_, peak, _) => some peak

/-! ### Scheduler lemmas -/

/-- Storing completions by index is insensitive to completion order: slot `j`
of the fold holds `entry j` exactly when some completion for `j` was
processed (and `j` is a valid slot). -/
lemma foldl_set_getElem? (entry : Nat → SubtaskResult) (order : List Nat) :
    ∀ (acc : List (Option SubtaskResult)) (j : Nat),
      (order.foldl (fun r i => r.set i (some (entry i))) acc)[j]? =
        if j ∈ order ∧ j < acc.length then some (some (entry j)) else acc[j]? := by
  induction order with
  | nil => intro acc j; simp
  | cons i order ih =>
    intro acc j
    rw [List.foldl_cons, ih, List.length_set]
    by_cases hlt : j < acc.length
    · by_cases hmem : j ∈ order
      · simp [hmem, hlt, List.mem_cons]
      · by_cases hij : j = i
        · subst hij
          simp [hmem, hlt, List.getElem?_set]
        · rw [if_neg (by tauto), List.getElem?_set_ne (fun h => hij h.symm)]
          rw [if_neg ?_]
          rintro ⟨hm, _⟩
          rcases List.mem_cons.mp hm with h | h
          · exact hij h
          · exact hmem h
    · rw [if_neg (by tauto), if_neg (by tauto), List.getElem?_set]
      by_cases hij : i = j
      · subst hij
        rw [if_pos rfl, if_neg hlt, eq_comm]
        exact List.getElem?_eq_none (Nat.le_of_not_lt hlt)
      · rw [if_neg hij]

/-- Length is preserved by the completion fold. -/
lemma foldl_set_length (entry : Nat → SubtaskResult) (order : List Nat) :
    ∀ acc : List (Option SubtaskResult),
      (order.foldl (fun r i => r.set i (some (entry i))) acc).length = acc.length := by
  induction order with
  | nil => intro acc; rfl
  | cons i order ih => intro acc; rw [List.foldl_cons, ih, List.length_set]

/-- Collecting a list of `some`s succeeds with the underlying list. -/
lemma allSome_map_some {α : Type} (l : List α) : allSome (l.map some) = some l := by
  induction l with
  | nil => rfl
  | cons a t ih => simp [allSome, ih]

/-- The completion loop terminates and computes the index-keyed fold of the
completions, provided the completion order is exactly long enough to drain
the in-flight and pending tasks (which a real `JoinSet` guarantees). -/
lemma batchLoop_run (entry : Nat → SubtaskResult) :
    ∀ (order : List Nat) (pending : List (Nat × String)) (active : Nat)
      (results : List (Option SubtaskResult)),
      order.length = active + pending.length →
      (pending = [] ∨ 0 < active) →
      ∃ peak spawns,
        batchLoop entry order pending active results =
          some (order.foldl (fun r i => r.set i (some (entry i))) results, peak, spawns) := by
  intro order
  induction order with
  | nil =>
    intro pending active results hlen _
    have ha : active = 0 := by simp only [List.length_nil] at hlen; omega
    subst ha
    exact ⟨0, 0, rfl⟩
  | cons i order ih =>
    intro pending active results hlen hside
    cases active with
    | zero =>
      rcases hside with h | h
      · subst h
        simp at hlen
      · exact absurd h (lt_irrefl 0)
    | succ active =>
      cases pending with
      | nil =>
        obtain ⟨peak, spawns, heq⟩ :=
          ih [] active (results.set i (some (entry i)))
            (by simp only [List.length_cons, List.length_nil] at hlen ⊢; omega) (Or.inl rfl)
        refine ⟨max (active + 1) peak, spawns, ?_⟩
        simp only [batchLoop, heq, List.foldl_cons]
      | cons p rest =>
        obtain ⟨peak, spawns, heq⟩ :=
          ih rest (active + 1) (results.set i (some (entry i)))
            (by simp only [List.length_cons] at hlen; omega) (Or.inr (Nat.succ_pos active))
        refine ⟨max (active + 1) peak, spawns + 1, ?_⟩
        simp only [batchLoop, heq, List.foldl_cons]

/-- The loop never has more tasks in flight than it started with: each
completion admits at most one refill launch. -/
lemma batchLoop_peak_le (entry : Nat → SubtaskResult) (L : Nat) :
    ∀ (order : List Nat) (pending : List (Nat × String)) (active : Nat)
      (results : List (Option SubtaskResult)) res,
      active ≤ L →
      batchLoop entry order pending active results = some res →
      res.2.1 ≤ L := by
  intro order
  induction order with
  | nil =>
    intro pending active results res hle heq
    cases active with
    | zero =>
      cases heq
      exact Nat.zero_le L
    | succ active => exact absurd heq (by simp [batchLoop])
  | cons i order ih =>
    intro pending active results res hle heq
    cases active with
    | zero =>
      cases heq
      exact Nat.zero_le L
    | succ active =>
      cases pending with
      | nil =>
        revert heq
        simp only [batchLoop]
        rcases hrec : batchLoop entry order [] active (results.set i (some (entry i))) with
          _ | ⟨r, peak, spawns⟩
        · intro h; exact absurd h (by simp)
        · intro h
          cases h
          have hp := ih [] active (results.set i (some (entry i))) (r, peak, spawns)
            (Nat.le_of_succ_le hle) hrec
          simp only at hp
          exact max_le hle hp
      | cons p rest =>
        revert heq
        simp only [batchLoop]
        rcases hrec : batchLoop entry order rest (active + 1) (results.set i (some (entry i))) with
          _ | ⟨r, peak, spawns⟩
        · intro h; exact absurd h (by simp)
        · intro h
          cases h
          have hp := ih rest (active + 1) (results.set i (some (entry i))) (r, peak, spawns)
            hle hrec
          simp only at hp
          exact max_le hle hp

/-- Reduction of `run_delegate_batch` with the local bindings inlined. -/
lemma run_delegate_batch_eq (depth : Nat) (subtasks : List String) (max_concurrency : Nat)
    (outcome : Nat → Except String String) (order : List Nat) :
    run_delegate_batch depth subtasks max_concurrency outcome order =
      if subtasks.length = 0 then .error "delegate_subtask requires at least one subtask"
      else
        match batchLoop (fun i => mkEntry (subtasks.getD i "") (outcome i)) order
            (subtasks.enum.drop
              (min (min (max max_concurrency 1) MAX_PARALLEL_DELEGATIONS) subtasks.length))
            ((subtasks.enum.take
              (min (min (max max_concurrency 1) MAX_PARALLEL_DELEGATIONS) subtasks.length)).length)
            (List.replicate subtasks.length none) with
        | none => .error "delegate subtask panicked"
        | some (results, _, _) =>
          match allSome results with
          | none => .error "missing delegate results after execution"
          | some collected =>
            .ok ⟨depth + 1, collected.length,
                 min (min (max max_concurrency 1) MAX_PARALLEL_DELEGATIONS) subtasks.length,
                 collected⟩ := rfl

/-- Reduction of `run_delegate_batch_peak` with the local bindings inlined. -/
lemma run_delegate_batch_peak_eq (subtasks : List String) (max_concurrency : Nat)
    (outcome : Nat → Except String String) (order : List Nat) :
    run_delegate_batch_peak subtasks max_concurrency outcome order =
      if subtasks.length = 0 then none
      else
        match batchLoop (fun i => mkEntry (subtasks.getD i "") (outcome i)) order
            (subtasks.enum.drop
              (min (min (max max_concurrency 1) MAX_PARALLEL_DELEGATIONS) subtasks.length))
            ((subtasks.enum.take
              (min (min (max max_concurrency 1) MAX_PARALLEL_DELEGATIONS) subtasks.length)).length)
            (List.replicate subtasks.length none) with
        | none => none
        | some (_, peak, _) => some peak := rfl

/-- Full characterization of a successful batch: under a total completion
order, the batch returns ok with the ordered per-index entries, reports the
clamped concurrency limit, and the observed peak concurrency stays within
that limit. -/
lemma run_delegate_batch_ok (depth max_concurrency : Nat) (subtasks : List String)
    (outcome : Nat → Except String String) (order : List Nat)
    (hne : subtasks ≠ [])
    (hlen : order.length = subtasks.length)
    (hcov : ∀ j, j < subtasks.length → j ∈ order) :
    run_delegate_batch depth subtasks max_concurrency outcome order =
      .ok ⟨depth + 1, subtasks.length,
           min (min (max max_concurrency 1) MAX_PARALLEL_DELEGATIONS) subtasks.length,
           (List.range subtasks.length).map
             (fun i => mkEntry (subtasks.getD i "") (outcome i))⟩ ∧
    ∃ peak, run_delegate_batch_peak subtasks max_concurrency outcome order = some peak ∧
      peak ≤ min (min (max max_concurrency 1) MAX_PARALLEL_DELEGATIONS) subtasks.length := by
  set total := subtasks.length with htotal
  have htpos : 0 < total := by
    cases subtasks with
    | nil => exact absurd rfl hne
    | cons a t => simp [htotal]
  set limit := min (min (max max_concurrency 1) MAX_PARALLEL_DELEGATIONS) total with hlimit
  have hl1 : 1 ≤ limit := by
    have : 1 ≤ min (max max_concurrency 1) MAX_PARALLEL_DELEGATIONS := by
      have h1 : 1 ≤ max max_concurrency 1 := le_max_right _ _
      have h2 : (1 : Nat) ≤ MAX_PARALLEL_DELEGATIONS := by norm_num [MAX_PARALLEL_DELEGATIONS]
      exact le_min h1 h2
    exact le_min this htpos
  have hlt : limit ≤ total := min_le_right _ _
  have henum : subtasks.enum.length = total := List.enum_length
  set entry := fun i => mkEntry (subtasks.getD i "") (outcome i) with hentry
  have hlaunched : (subtasks.enum.take limit).length = limit := by
    rw [List.length_take, henum]
    exact Nat.min_eq_left hlt
  have hpending : (subtasks.enum.drop limit).length = total - limit := by
    rw [List.length_drop, henum]
  have hbal : order.length = (subtasks.enum.take limit).length +
      (subtasks.enum.drop limit).length := by
    rw [hlaunched, hpending, hlen]
    omega
  obtain ⟨peak, spawns, hloop⟩ :=
    batchLoop_run entry order (subtasks.enum.drop limit) (subtasks.enum.take limit).length
      (List.replicate total none) hbal (Or.inr (by rw [hlaunched]; omega))
  have hpeak : peak ≤ limit :=
    batchLoop_peak_le entry limit order (subtasks.enum.drop limit)
      (subtasks.enum.take limit).length (List.replicate total none) _
      (by rw [hlaunched]) hloop
  have hfold : order.foldl (fun r i => r.set i (some (entry i))) (List.replicate total none) =
      (List.range total).map (fun i => some (entry i)) := by
    apply List.ext_getElem?
    intro n
    rw [foldl_set_getElem?, List.getElem?_map]
    by_cases hn : n < total
    · rw [if_pos ⟨hcov n hn, by rw [List.length_replicate]; exact hn⟩,
        List.getElem?_range hn]
      rfl
    · rw [if_neg (by rw [List.length_replicate]; tauto)]
      rw [List.getElem?_eq_none (by rw [List.length_replicate]; omega),
        List.getElem?_eq_none (by rw [List.length_range]; omega)]
      rfl
  have hall : allSome ((List.range total).map (fun i => some (entry i))) =
      some ((List.range total).map entry) := by
    rw [show (List.range total).map (fun i => some (entry i)) =
        ((List.range total).map entry).map some by rw [List.map_map]; rfl]
    exact allSome_map_some _
  constructor
  · rw [run_delegate_batch_eq, if_neg (by omega)]
    rw [← hlimit, hloop, hfold]
    simp only [hall, List.length_map, List.length_range]
  · refine ⟨peak, ?_, hpeak⟩
    rw [run_delegate_batch_peak_eq, if_neg (by omega), ← hlimit, hloop]

/-- Claim C2: for every non-empty subtask list, and every completion order
(any sequence of original indices that delivers each subtask exactly the
right number of times), the returned results list has exactly one entry per
subtask, and the i-th entry carries the i-th subtask text together with
that subtask's ok/error outcome. -/
theorem run_delegate_batch_ordered (depth max_concurrency : Nat) (subtasks : List String)
    (outcome : Nat → Except String String) (order : List Nat)
    (hne : subtasks ≠ [])
    (hlen : order.length = subtasks.length)
    (hcov : ∀ j, j < subtasks.length → j ∈ order) :
    ∃ b, run_delegate_batch depth subtasks max_concurrency outcome order = .ok b ∧
      b.results.length = subtasks.length ∧
      ∀ i, i < subtasks.length →
        b.results[i]? = some (mkEntry (subtasks.getD i "") (outcome i)) := by
  obtain ⟨hok, -⟩ :=
    run_delegate_batch_ok depth max_concurrency subtasks outcome order hne hlen hcov
  refine ⟨_, hok, ?_, ?_⟩
  · simp
  · intro i hi
    simp only [List.getElem?_map, List.getElem?_range hi, Option.map_some']

/-- Witness for C2: two subtasks completing in reversed order still produce
an in-order results list. -/
theorem run_delegate_batch_ordered_witness :
    ∃ b, run_delegate_batch 0 ["count files in a", "count files in b"] 2
        (fun i => Except.ok (toString i)) [1, 0] = .ok b ∧
      b.results.length = 2 ∧
      ∀ i, i < 2 →
        b.results[i]? =
          some (mkEntry (["count files in a", "count files in b"].getD i "")
            (Except.ok (toString i))) :=
  run_delegate_batch_ordered 0 2 ["count files in a", "count files in b"]
    (fun i => Except.ok (toString i)) [1, 0] (by decide) (by decide) (by decide)

/-- Claim C7: the effective concurrency limit is
`min (clamp max_concurrency 1 MAX_PARALLEL_DELEGATIONS) T`; the batch payload
reports it as `max_concurrency`, and the peak number of simultaneously
in-flight children never exceeds it. -/
theorem run_delegate_batch_bounded (depth max_concurrency : Nat) (subtasks : List String)
    (outcome : Nat → Except String String) (order : List Nat)
    (hne : subtasks ≠ [])
    (hlen : order.length = subtasks.length)
    (hcov : ∀ j, j < subtasks.length → j ∈ order) :
    ∃ b peak,
      run_delegate_batch depth subtasks max_concurrency outcome order = .ok b ∧
      b.max_concurrency =
        min (min (max max_concurrency 1) MAX_PARALLEL_DELEGATIONS) subtasks.length ∧
      run_delegate_batch_peak subtasks max_concurrency outcome order = some peak ∧
      peak ≤ b.max_concurrency := by
  obtain ⟨hok, peak, hpeak, hle⟩ :=
    run_delegate_batch_ok depth max_concurrency subtasks outcome order hne hlen hcov
  exact ⟨_, peak, hok, rfl, hpeak, hle⟩

/-- Witness for C7: ten subtasks with default parallelism 4 report limit 4
and never exceed four in flight. -/
theorem run_delegate_batch_bounded_witness :
    ∃ b peak,
      run_delegate_batch 0 ["s0", "s1", "s2", "s3", "s4", "s5", "s6", "s7", "s8", "s9"]
        DEFAULT_PARALLEL_DELEGATIONS (fun _ => Except.ok "done")
        [9, 8, 7, 6, 5, 4, 3, 2, 1, 0] = .ok b ∧
      b.max_concurrency =
        min (min (max DEFAULT_PARALLEL_DELEGATIONS 1) MAX_PARALLEL_DELEGATIONS)
          ["s0", "s1", "s2", "s3", "s4", "s5", "s6", "s7", "s8", "s9"].length ∧
      run_delegate_batch_peak ["s0", "s1", "s2", "s3", "s4", "s5", "s6", "s7", "s8", "s9"]
        DEFAULT_PARALLEL_DELEGATIONS (fun _ => Except.ok "done")
        [9, 8, 7, 6, 5, 4, 3, 2, 1, 0] = some peak ∧
      peak ≤ b.max_concurrency :=
  run_delegate_batch_bounded 0 DEFAULT_PARALLEL_DELEGATIONS
    ["s0", "s1", "s2", "s3", "s4", "s5", "s6", "s7", "s8", "s9"]
    (fun _ => Except.ok "done") [9, 8, 7, 6, 5, 4, 3, 2, 1, 0]
    (by decide) (by decide) (by decide)

/-- Claim C8: a subtask whose child conversation fails is recorded as an
error entry at its own index, and the entries of every sibling are exactly
what they would have been under any outcome assignment that differs only at
the failing index: no sibling is cancelled or altered. -/
theorem run_delegate_batch_failure_isolated (depth max_concurrency : Nat)
    (subtasks : List String) (outcome outcome' : Nat → Except String String)
    (order : List Nat) (k : Nat) (e : String)
    (hne : subtasks ≠ [])
    (hlen : order.length = subtasks.length)
    (hcov : ∀ j, j < subtasks.length → j ∈ order)
    (hk : outcome k = .error e)
    (hagree : ∀ j, j ≠ k → outcome' j = outcome j) :
    ∃ b b',
      run_delegate_batch depth subtasks max_concurrency outcome order = .ok b ∧
      run_delegate_batch depth subtasks max_concurrency outcome' order = .ok b' ∧
      (k < subtasks.length →
        b.results[k]? = some ⟨subtasks.getD k "", .error, e⟩) ∧
      ∀ j, j ≠ k → b.results[j]? = b'.results[j]? := by
  obtain ⟨hok, -⟩ :=
    run_delegate_batch_ok depth max_concurrency subtasks outcome order hne hlen hcov
  obtain ⟨hok', -⟩ :=
    run_delegate_batch_ok depth max_concurrency subtasks outcome' order hne hlen hcov
  refine ⟨_, _, hok, hok', ?_, ?_⟩
  · intro hkl
    simp only [List.getElem?_map, List.getElem?_range hkl, Option.map_some']
    rw [hk]
    rfl
  · intro j hj
    by_cases hjl : j < subtasks.length
    · simp only [List.getElem?_map, List.getElem?_range hjl, Option.map_some']
      rw [hagree j hj]
    · rw [List.getElem?_eq_none (by simp; omega), List.getElem?_eq_none (by simp; omega)]

/-- Witness for C8: in a three-subtask batch where subtask 1 fails, the
failure lands at index 1 and indices 0 and 2 match the run in which
subtask 1 succeeds instead. -/
theorem run_delegate_batch_failure_isolated_witness :
    ∃ b b',
      run_delegate_batch 0 ["a", "b", "c"] 4
        (fun i => if i = 1 then Except.error "boom" else Except.ok "fine") [0, 1, 2] = .ok b ∧
      run_delegate_batch 0 ["a", "b", "c"] 4
        (fun i => if i = 1 then Except.ok "fixed" else Except.ok "fine") [0, 1, 2] = .ok b' ∧
      (1 < ["a", "b", "c"].length →
        b.results[1]? = some ⟨["a", "b", "c"].getD 1 "", .error, "boom"⟩) ∧
      ∀ j, j ≠ 1 → b.results[j]? = b'.results[j]? :=
  run_delegate_batch_failure_isolated 0 4 ["a", "b", "c"]
    (fun i => if i = 1 then Except.error "boom" else Except.ok "fine")
    (fun i => if i = 1 then Except.ok "fixed" else Except.ok "fine")
    [0, 1, 2] 1 "boom" (by decide) (by decide) (by decide) (by simp)
    (fun j hj => by simp [hj])

/-! ## Conversation loop (FileReader::run_conversation, src/file_reader.rs:618-771)

The backend is an oracle mapping the iteration number to a response:
a transport error or timeout (retried after a backoff sleep), an empty
`choices` array (fatal), or an assistant message with optional tool
calls and optional content.  Tool execution is an oracle from tool call
to result; an `Except.error` outcome stands for the `tool_error` JSON
payload built at src/file_reader.rs:713-734 — either way a tool message
is appended and the loop continues.  The fuel argument counts the
iterations remaining out of `MAX_TOOL_ITERATIONS`. -/

/-- Rust `str::trim`, modelled over the character list. -/
def rustTrim (s : String) : String :=
  String.mk ((s.toList.dropWhile Char.isWhitespace).reverse.dropWhile Char.isWhitespace).reverse

/-- One backend-requested tool invocation (identifier and correlation id). -/
structure ToolCall where
  id : String
  name : String
deriving DecidableEq

/-- Conversation message, as accumulated by the loop. -/
inductive Msg where
  | system (content : String)
  | user (content : String)
  | assistant (tool_calls : List ToolCall)
  | toolResult (id : String) (outcome : Except String String)

/-- Backend response for one iteration. -/
inductive BackendResponse where
  | transportError
  | noChoices
  | reply (tool_calls : Option (List ToolCall)) (content : Option String)

/-- Tool-result messages appended for one assistant turn, in call order. -/
def toolMessages (execTool : ToolCall → Except String String) (tcs : List ToolCall) : List Msg :=
  tcs.map (fun tc => Msg.toolResult tc.id (execTool tc))

/-- The `for iteration in 0..MAX_TOOL_ITERATIONS` loop of
FileReader::run_conversation (src/file_reader.rs:624-769). -/
def run_conversation_aux (oracle : Nat → BackendResponse)
    (execTool : ToolCall → Except String String) :
    Nat → Nat → List Msg → Except String String
  | 0, _, _ => .error "LLM tool loop did not terminate with a message"
  | fuel + 1, iteration, messages =>
    match oracle iteration with
    | .transportError => run_conversation_aux oracle execTool fuel (iteration + 1) messages
    | .noChoices => .error "chat completion returned no choices"
    | .reply tool_calls content =>
      match tool_calls with
      | some (tc :: tcs) =>
        run_conversation_aux oracle execTool fuel (iteration + 1)
          (messages ++ Msg.assistant (tc :: tcs) :: toolMessages execTool (tc :: tcs))
      | some [] | none =>
        match content with
        | some c =>
          if rustTrim c = "" then
            run_conversation_aux oracle execTool fuel (iteration + 1) messages
          else .ok c
        | none => run_conversation_aux oracle execTool fuel (iteration + 1) messages

/-- FileReader::run_conversation entry point. -/
def run_conversation (oracle : Nat → BackendResponse)
    (execTool : ToolCall → Except String String) (messages : List Msg) :
    Except String String :=
  run_conversation_aux oracle execTool MAX_TOOL_ITERATIONS 0 messages

/-- Claim C3: a response with a non-empty tool-call list is never a final
answer — whatever content it carries, the loop executes the calls, appends
the assistant and tool messages, and continues; a response with an empty or
absent tool-call list and non-whitespace content terminates the loop with
exactly that content. -/
theorem run_conversation_step (oracle : Nat → BackendResponse)
    (execTool : ToolCall → Except String String) (fuel iteration : Nat) (messages : List Msg) :
    (∀ tcs content, oracle iteration = .reply (some tcs) content → tcs ≠ [] →
      run_conversation_aux oracle execTool (fuel + 1) iteration messages =
        run_conversation_aux oracle execTool fuel (iteration + 1)
          (messages ++ Msg.assistant tcs :: toolMessages execTool tcs)) ∧
    (∀ otc c, oracle iteration = .reply otc (some c) → (otc = none ∨ otc = some []) →
      rustTrim c ≠ "" →
      run_conversation_aux oracle execTool (fuel + 1) iteration messages = .ok c) := by
  constructor
  · intro tcs content h hne
    cases tcs with
    | nil => exact absurd rfl hne
    | cons tc rest => simp only [run_conversation_aux, h]
  · rintro otc c h (rfl | rfl) hc
    · simp only [run_conversation_aux, h]
      rw [if_neg hc]
    · simp only [run_conversation_aux, h]
      rw [if_neg hc]

/-- Backend oracle for the C3 witness: iteration 0 answers with one tool
call plus text, iteration 1 answers with plain text. -/
def oracleW : Nat → BackendResponse := fun iteration =>
  if iteration = 0 then .reply (some [⟨"call_1", "list_directory"⟩]) (some "interim text")
  else .reply none (some "final answer")

/-- Tool oracle for the C3 witness. -/
def execToolW : ToolCall → Except String String := fun _ => .ok "listing"

/-- Witness for C3: with the concrete oracle, the tool-call turn continues
(despite its text) and the text-only turn returns that text. -/
theorem run_conversation_step_witness :
    (run_conversation_aux oracleW execToolW 2 0 [] =
      run_conversation_aux oracleW execToolW 1 1
        ([] ++ Msg.assistant [⟨"call_1", "list_directory"⟩] ::
          toolMessages execToolW [⟨"call_1", "list_directory"⟩])) ∧
    run_conversation_aux oracleW execToolW 1 1 [] = .ok "final answer" :=
  ⟨(run_conversation_step oracleW execToolW 1 0 []).1
      [⟨"call_1", "list_directory"⟩] (some "interim text") rfl (by simp),
   (run_conversation_step oracleW execToolW 0 1 []).2
      none "final answer" rfl (Or.inl rfl) (by decide)⟩

/-! ## Delegate tool argument parsing and execution
(FileReader::execute_tool, DelegateSubtask arm, src/file_reader.rs:544-614)

The parsed JSON argument object is modelled as a lookup from field name
to an optional JSON value.  `Value::as_str` yields `some` only on a
string value and `Value::as_array` only on an array, exactly as in
serde_json. -/

/-- Minimal JSON value shape needed by the delegate argument parser. -/
inductive JVal where
  | jstr (s : String)
  | jarr (items : List JVal)
  | jother

/-- Trim a candidate subtask string and append it unless empty
(the repeated `let trimmed = ...; if !trimmed.is_empty() { push }` pattern). -/
def pushTrimmed (acc : List String) (s : String) : List String :=
  if rustTrim s = "" then acc else acc ++ [rustTrim s]

/-- Walk a `subtasks`/`prompts` array, pushing trimmed non-empty strings and
rejecting any non-string element (src/file_reader.rs:565-574, 587-596). -/
def collectStrings (fieldError : String) : List JVal → List String → Except String (List String)
  | [], acc => .ok acc
  | JVal.jstr s :: rest, acc => collectStrings fieldError rest (pushTrimmed acc s)
  | _ :: _, _ => .error fieldError

/-- The backward-compatibility branch consulting `prompt` and `prompts`,
plus the final empty-batch rejection (src/file_reader.rs:576-601). -/
def parseCompatFields (args : String → Option JVal) : Except String (List String) :=
  let base :=
    match args "prompt" with
    | some (JVal.jstr s) => pushTrimmed [] s
    | _ => []
  let step :=
    match args "prompts" with
    | none => Except.ok base
    | some (JVal.jarr arr) => collectStrings "`prompts` must be an array of strings" arr base
    | some _ => Except.error "`prompts` must be an array of strings"
  match step with
  | .error e => .error e
  | .ok subtasks =>
    if subtasks.isEmpty then
      .error "delegate_subtask requires `subtask` or a non-empty `subtasks` array"
    else .ok subtasks

/-- Assemble the subtask list from the `subtask` string and the `subtasks`
array, falling back to `prompt`/`prompts` only when those produced nothing
(src/file_reader.rs:552-601). -/
def parseDelegateSubtasks (args : String → Option JVal) : Except String (List String) :=
  let base :=
    match args "subtask" with
    | some (JVal.jstr s) => pushTrimmed [] s
    | _ => []
  let step :=
    match args "subtasks" with
    | none => Except.ok base
    | some (JVal.jarr arr) => collectStrings "`subtasks` must be an array of strings" arr base
    | some _ => Except.error "`subtasks` must be an array of strings"
  match step with
  | .error e => .error e
  | .ok subtasks =>
    if subtasks.isEmpty then parseCompatFields args
    else .ok subtasks

/-- The DelegateSubtask arm of FileReader::execute_tool: depth guard, then
argument parsing, then the batch run with the fixed default parallelism. -/
def execute_tool_delegate (depth max_subdelegations : Nat) (args : String → Option JVal)
    (outcome : Nat → Except String String) (order : List Nat) : Except String BatchResult :=
  if max_subdelegations ≤ depth then
    .error ("delegate_subtask limit reached (depth " ++ toString depth ++ " >= " ++
      toString max_subdelegations ++ ")")
  else
    match parseDelegateSubtasks args with
    | .error e => .error e
    | .ok subtasks => run_delegate_batch depth subtasks DEFAULT_PARALLEL_DELEGATIONS outcome order

/-- Number of child agents spawned during the same call: the initial
launches plus the refill launches observed by the completion loop. -/
def run_delegate_batch_spawn_count (subtasks : List String) (max_concurrency : Nat)
    (outcome : Nat → Except String String) (order : List Nat) : Nat :=
  let total := subtasks.length
  if total = 0 then 0
  else
    let limit := min (min (max max_concurrency 1) MAX_PARALLEL_DELEGATIONS) total
    let launched := subtasks.enum.take limit
    let pending := subtasks.enum.drop limit
    let entry := fun i => mkEntry (subtasks.getD i "") (outcome i)
    match batchLoop entry order pending launched.length (List.replicate total none) with
    | none => launched.length
    | some (_, _, spawns) => launched.length + spawns

/-- Children spawned by the DelegateSubtask arm: zero on the depth guard and
on argument errors, otherwise the batch spawn count. -/
def execute_tool_delegate_spawn_count (depth max_subdelegations : Nat)
    (args : String → Option JVal) (outcome : Nat → Except String String)
    (order : List Nat) : Nat :=
  if max_subdelegations ≤ depth then 0
  else
    match parseDelegateSubtasks args with
    | .error _ => 0
    | .ok subtasks =>
      run_delegate_batch_spawn_count subtasks DEFAULT_PARALLEL_DELEGATIONS outcome order

/-- Claim C4: an agent whose depth has reached its delegation ceiling
answers every `delegate_subtask` call with the limit-reached error, spawns
zero children, and the conversation loop surfaces the error as an appended
tool-result message and keeps running (no fatal failure). -/
theorem execute_tool_delegate_depth_ceiling (depth max_subdelegations : Nat)
    (args : String → Option JVal) (outcome : Nat → Except String String) (order : List Nat)
    (h : max_subdelegations ≤ depth) :
    execute_tool_delegate depth max_subdelegations args outcome order =
      .error ("delegate_subtask limit reached (depth " ++ toString depth ++ " >= " ++
        toString max_subdelegations ++ ")") ∧
    execute_tool_delegate_spawn_count depth max_subdelegations args outcome order = 0 ∧
    ∀ (oracle : Nat → BackendResponse) (execTool : ToolCall → Except String String)
      (fuel iteration : Nat) (messages : List Msg) (tc : ToolCall) (content : Option String),
      oracle iteration = .reply (some [tc]) content →
      execTool tc = .error ("delegate_subtask limit reached (depth " ++ toString depth ++
        " >= " ++ toString max_subdelegations ++ ")") →
      run_conversation_aux oracle execTool (fuel + 1) iteration messages =
        run_conversation_aux oracle execTool fuel (iteration + 1)
          (messages ++ [Msg.assistant [tc],
            Msg.toolResult tc.id (.error ("delegate_subtask limit reached (depth " ++
              toString depth ++ " >= " ++ toString max_subdelegations ++ ")"))]) := by
  refine ⟨?_, ?_, ?_⟩
  · unfold execute_tool_delegate
    rw [if_pos h]
  · unfold execute_tool_delegate_spawn_count
    rw [if_pos h]
  · intro oracle execTool fuel iteration messages tc content horacle hexec
    simp only [run_conversation_aux, horacle, toolMessages, List.map_cons, List.map_nil, hexec]

/-- Witness for C4: at depth 2 with ceiling 2 the call errors, spawns no
child, and the loop turns the error into a tool message and continues. -/
theorem execute_tool_delegate_depth_ceiling_witness :
    execute_tool_delegate 2 2 (fun _ => some (JVal.jstr "task")) (fun _ => Except.ok "") [] =
      .error "delegate_subtask limit reached (depth 2 >= 2)" ∧
    execute_tool_delegate_spawn_count 2 2 (fun _ => some (JVal.jstr "task"))
      (fun _ => Except.ok "") [] = 0 ∧
    run_conversation_aux
        (fun _ => .reply (some [⟨"call_9", "delegate_subtask"⟩]) none)
        (fun _ => .error "delegate_subtask limit reached (depth 2 >= 2)") 1 0 [] =
      run_conversation_aux
        (fun _ => .reply (some [⟨"call_9", "delegate_subtask"⟩]) none)
        (fun _ => .error "delegate_subtask limit reached (depth 2 >= 2)") 0 1
        ([] ++ [Msg.assistant [⟨"call_9", "delegate_subtask"⟩],
          Msg.toolResult "call_9" (.error "delegate_subtask limit reached (depth 2 >= 2)")]) := by
  obtain ⟨h1, h2, h3⟩ :=
    execute_tool_delegate_depth_ceiling 2 2 (fun _ => some (JVal.jstr "task"))
      (fun _ => Except.ok "") [] (le_refl 2)
  refine ⟨h1, h2, ?_⟩
  exact h3 (fun _ => .reply (some [⟨"call_9", "delegate_subtask"⟩]) none)
    (fun _ => .error "delegate_subtask limit reached (depth 2 >= 2)") 0 0 []
    ⟨"call_9", "delegate_subtask"⟩ none rfl rfl

/-- Trimmed, nonempty-filtered view of a string list: what the parser
accumulates from a sequence of candidate subtask strings. -/
def trimmedNonEmpty (strs : List String) : List String :=
  (strs.map rustTrim).filter (fun s => s != "")

/-- Walking an all-strings array appends exactly the trimmed non-empty
entries, in order. -/
lemma collectStrings_strings (fieldError : String) (strs : List String) :
    ∀ acc, collectStrings fieldError (strs.map JVal.jstr) acc =
      .ok (acc ++ trimmedNonEmpty strs) := by
  induction strs with
  | nil => intro acc; simp [collectStrings, trimmedNonEmpty]
  | cons s rest ih =>
    intro acc
    simp only [List.map_cons, collectStrings, ih]
    unfold pushTrimmed trimmedNonEmpty
    by_cases h : rustTrim s = ""
    · simp [h]
    · simp [h]

/-- Merging the single `subtask` entry with the array entries. -/
lemma pushTrimmed_nil_append (s : String) (strs : List String) :
    pushTrimmed [] s ++ trimmedNonEmpty strs = trimmedNonEmpty (s :: strs) := by
  unfold pushTrimmed trimmedNonEmpty
  by_cases h : rustTrim s = ""
  · simp [h]
  · simp [h]

/-- Claim C10: when both a `subtask` string and a `subtasks` array of
strings are supplied, the parsed batch is the single subtask first followed
by the array entries in order, each trimmed and dropped when empty; the
compatibility fields `prompt`/`prompts` are consulted exactly when those
two fields yielded no non-empty entry. -/
theorem parseDelegateSubtasks_precedence (args : String → Option JVal) (s : String)
    (strs : List String)
    (hs : args "subtask" = some (JVal.jstr s))
    (harr : args "subtasks" = some (JVal.jarr (strs.map JVal.jstr))) :
    (trimmedNonEmpty (s :: strs) ≠ [] →
      parseDelegateSubtasks args = .ok (trimmedNonEmpty (s :: strs))) ∧
    (trimmedNonEmpty (s :: strs) = [] →
      parseDelegateSubtasks args = parseCompatFields args) := by
  have hred : parseDelegateSubtasks args =
      if (trimmedNonEmpty (s :: strs)).isEmpty then parseCompatFields args
      else .ok (trimmedNonEmpty (s :: strs)) := by
    unfold parseDelegateSubtasks
    rw [hs, harr]
    simp only [collectStrings_strings, pushTrimmed_nil_append]
  constructor
  · intro hne
    rw [hred, if_neg (by simpa [List.isEmpty_iff] using hne)]
  · intro he
    rw [hred, if_pos (by simpa [List.isEmpty_iff] using he)]

/-- Argument object for the C10 witness: both main fields present, a
`prompt` field present but (correctly) ignored. -/
def argsW : String → Option JVal := fun k =>
  if k = "subtask" then some (JVal.jstr " alpha ")
  else if k = "subtasks" then some (JVal.jarr [JVal.jstr "beta", JVal.jstr "  "])
  else if k = "prompt" then some (JVal.jstr "ignored")
  else none

/-- Witness for C10: the single subtask runs first, the array entries
follow in order, the empty entry is dropped, and `prompt` is ignored. -/
theorem parseDelegateSubtasks_precedence_witness :
    parseDelegateSubtasks argsW = .ok ["alpha", "beta"] :=
  ((parseDelegateSubtasks_precedence argsW " alpha " ["beta", "  "] rfl rfl).1
    (by decide)).trans (congrArg Except.ok (by decide))

/-! ## Line-range file reader (tools::filesystem::read_file_range,
src/tools/filesystem.rs:88-143)

The file content is the lossily-decoded string `content`.  `rustLines`
models Rust `str::lines`: lines are terminated by a newline (with a
carriage return immediately before a newline stripped), and a trailing
newline does not produce a final empty line.  `rangeLoop` mirrors the
`for (idx, line) in content.lines().enumerate()` loop with its skip,
break, accumulate and first/last bookkeeping; `renderExtracted` mirrors
pushing each line plus a newline and stripping the final newline. -/

/-- Accumulator-passing core of `rustLines`; `cur` holds the current line's
characters in reverse. -/
def rustLinesAux : List Char → List Char → List String
  | [], cur => if cur.isEmpty then [] else [String.mk cur.reverse]
  | '\n' :: rest, cur =>
    (match cur with
     | '\r' :: tail => String.mk tail.reverse
     | _ => String.mk cur.reverse) :: rustLinesAux rest []
  | c :: rest, cur => rustLinesAux rest (c :: cur)

/-- Rust `str::lines` over the decoded content. -/
def rustLines (s : String) : List String := rustLinesAux s.toList []

/-- Slice of a file selected by 1-based inclusive line numbers
(tools::filesystem::FileRange). -/
structure FileRange where
  path : String
  start_line : Nat
  end_line : Nat
  text : String
deriving DecidableEq

/-- The line-selection loop: skip lines before `s`, stop after `e`,
collect the window (in reverse in `acc`) and track the first and last
collected line numbers. -/
def rangeLoop (s e : Nat) :
    List String → Nat → List String → Option Nat → Option Nat →
    List String × Option Nat × Option Nat
  | [], _, acc, first, last => (acc.reverse, first, last)
  | line :: rest, lineNo, acc, first, last =>
    if lineNo < s then rangeLoop s e rest (lineNo + 1) acc first last
    else if e < lineNo then (acc.reverse, first, last)
    else rangeLoop s e rest (lineNo + 1) (line :: acc) (some (first.getD lineNo)) (some lineNo)

/-- Join the collected lines: each line is pushed followed by a newline and
one trailing newline is stripped at the end (src/tools/filesystem.rs:120-135). -/
def renderExtracted (ls : List String) : String :=
  let raw : String := ls.foldl (fun acc line => acc ++ line ++ "\n") ""
  match raw.toList.reverse with
  | '\n' :: rest => String.mk rest.reverse
  | _ => raw

/-- tools::filesystem::read_file_range: validate the bounds, select the
window, fail when nothing was selected.  The second match arm models the
`last_line.unwrap()` (unreachable: `last_line` is set whenever
`first_line` is). -/
def read_file_range (path : String) (content : String) (start_line end_line : Nat) :
    Except String FileRange :=
  if start_line = 0 then .error "start_line must be >= 1"
  else if end_line < start_line then .error "end_line must be >= start_line"
  else
    match rangeLoop start_line end_line (rustLines content) 1 [] none none with
    | (extracted, some f, some l) => .ok ⟨path, f, l, renderExtracted extracted⟩
    | (_, some _, none) => .error "panic: last_line unset"
    | (_, none, _) => .error "requested range is outside the bounds of the file"

/-- Collection phase of the loop: from line number `lineNo ≥ s`, the loop
returns the next `e + 1 - lineNo` lines and the matching first/last
bookkeeping. -/
lemma rangeLoop_collect (s e : Nat) (lines : List String) :
    ∀ (lineNo : Nat) (acc : List String) (f0 l0 : Option Nat), s ≤ lineNo →
      rangeLoop s e lines lineNo acc f0 l0 =
        (acc.reverse ++ lines.take (e + 1 - lineNo),
         if min lines.length (e + 1 - lineNo) = 0 then f0 else some (f0.getD lineNo),
         if min lines.length (e + 1 - lineNo) = 0 then l0
         else some (lineNo + min lines.length (e + 1 - lineNo) - 1)) := by
  induction lines with
  | nil =>
    intro lineNo acc f0 l0 hs
    simp [rangeLoop]
  | cons line rest ih =>
    intro lineNo acc f0 l0 hs
    simp only [rangeLoop]
    rw [if_neg (by omega)]
    by_cases he : e < lineNo
    · rw [if_pos he]
      have h0 : e + 1 - lineNo = 0 := by omega
      simp [h0]
    · rw [if_neg he]
      rw [ih (lineNo + 1) (line :: acc) (some (f0.getD lineNo)) (some lineNo) (by omega)]
      have harith : e + 1 - lineNo = (e - lineNo) + 1 := by omega
      have hlen : min (rest.length + 1) ((e - lineNo) + 1) = min rest.length (e - lineNo) + 1 :=
        Nat.succ_min_succ _ _
      simp only [List.length_cons, harith, Nat.add_sub_cancel, List.reverse_cons,
        List.append_assoc, List.singleton_append, List.take_succ_cons, hlen,
        Option.getD_some, Nat.succ_ne_zero, if_false]
      have hsub : e + 1 - (lineNo + 1) = e - lineNo := by omega
      rw [hsub, ite_self]
      by_cases hn : min rest.length (e - lineNo) = 0
      · rw [if_pos hn, hn]
        norm_num
      · rw [if_neg hn,
          show lineNo + 1 + min rest.length (e - lineNo) - 1 =
            lineNo + (min rest.length (e - lineNo) + 1) - 1 from by omega]

/-- Skip phase of the loop: from line number `lineNo ≤ s` the loop drops
`s - lineNo` lines and resumes at line number `s`. -/
lemma rangeLoop_skip (s e : Nat) (lines : List String) :
    ∀ (lineNo : Nat) (acc : List String) (f0 l0 : Option Nat), lineNo ≤ s →
      rangeLoop s e lines lineNo acc f0 l0 =
        rangeLoop s e (lines.drop (s - lineNo)) s acc f0 l0 := by
  induction lines with
  | nil =>
    intro lineNo acc f0 l0 h
    simp [rangeLoop]
  | cons line rest ih =>
    intro lineNo acc f0 l0 h
    by_cases heq : lineNo = s
    · subst heq
      simp
    · have hlt : lineNo < s := by omega
      have hstep : rangeLoop s e (line :: rest) lineNo acc f0 l0 =
          rangeLoop s e rest (lineNo + 1) acc f0 l0 := by
        simp only [rangeLoop]
        rw [if_pos hlt]
      have hdrop : (line :: rest).drop (s - lineNo) = rest.drop (s - (lineNo + 1)) := by
        rw [show s - lineNo = (s - (lineNo + 1)) + 1 from by omega, List.drop_succ_cons]
      rw [hstep, ih (lineNo + 1) acc f0 l0 (by omega), hdrop]

/-- Behaviour of `read_file_range` once the cheap bound checks pass. -/
lemma read_file_range_char (path content : String) (s e : Nat)
    (h1 : 1 ≤ s) (h2 : s ≤ e) :
    read_file_range path content s e =
      if s ≤ (rustLines content).length then
        .ok ⟨path, s, min e (rustLines content).length,
             renderExtracted (((rustLines content).drop (s - 1)).take
               (min e (rustLines content).length + 1 - s))⟩
      else .error "requested range is outside the bounds of the file" := by
  unfold read_file_range
  rw [if_neg (by omega), if_neg (by omega)]
  rw [rangeLoop_skip s e (rustLines content) 1 [] none none h1]
  rw [rangeLoop_collect s e ((rustLines content).drop (s - 1)) s [] none none (le_refl s)]
  have hlen : ((rustLines content).drop (s - 1)).length = (rustLines content).length - (s - 1) :=
    List.length_drop _ _
  by_cases hsl : s ≤ (rustLines content).length
  · have hn : ¬ min ((rustLines content).drop (s - 1)).length (e + 1 - s) = 0 := by
      rw [hlen]
      omega
    rw [if_pos hsl]
    simp only [if_neg hn, Option.getD_none, List.nil_append, List.reverse_nil]
    have hval : s + min ((rustLines content).drop (s - 1)).length (e + 1 - s) - 1 =
        min e (rustLines content).length := by
      rw [hlen]
      omega
    have hwin : ((rustLines content).drop (s - 1)).take (e + 1 - s) =
        ((rustLines content).drop (s - 1)).take (min e (rustLines content).length + 1 - s) := by
      rw [List.take_eq_take, hlen]
      omega
    rw [hval, hwin]
  · have hn : min ((rustLines content).drop (s - 1)).length (e + 1 - s) = 0 := by
      rw [hlen]
      omega
    rw [if_neg hsl]
    simp only [if_pos hn]

/-- Claim C9: `read_file_range` fails exactly when `start_line < 1`, or
`end_line < start_line`, or `start_line` exceeds the number of lines; on
success it returns the lines from `start_line` through
`min end_line (number of lines)` inclusive, with those bounds reported. -/
theorem read_file_range_spec (path content : String) (start_line end_line : Nat) :
    ((start_line = 0 ∨ end_line < start_line ∨
        (rustLines content).length < start_line) →
      ∃ msg, read_file_range path content start_line end_line = .error msg) ∧
    (1 ≤ start_line → start_line ≤ end_line →
      start_line ≤ (rustLines content).length →
      read_file_range path content start_line end_line =
        .ok ⟨path, start_line, min end_line (rustLines content).length,
             renderExtracted (((rustLines content).drop (start_line - 1)).take
               (min end_line (rustLines content).length + 1 - start_line))⟩) := by
  constructor
  · intro hbad
    by_cases h0 : start_line = 0
    · subst h0
      exact ⟨"start_line must be >= 1", by unfold read_file_range; rw [if_pos rfl]⟩
    · by_cases hes : end_line < start_line
      · refine ⟨"end_line must be >= start_line", ?_⟩
        unfold read_file_range
        rw [if_neg h0, if_pos hes]
      · have hlen : (rustLines content).length < start_line := by tauto
        refine ⟨"requested range is outside the bounds of the file", ?_⟩
        rw [read_file_range_char path content start_line end_line (by omega) (by omega)]
        rw [if_neg (by omega)]
  · intro hs1 hse hsl
    rw [read_file_range_char path content start_line end_line hs1 hse, if_pos hsl]

/-- Witness for C9: on a three-line file, range 2-5 clamps to lines 2-3 and
range 4-5 has no overlap and fails. -/
theorem read_file_range_spec_witness :
    read_file_range "notes.txt" "alpha\nbeta\ngamma\n" 2 5 =
      .ok ⟨"notes.txt", 2, 3, "beta\ngamma"⟩ ∧
    ∃ msg, read_file_range "notes.txt" "alpha\nbeta\ngamma\n" 4 5 = .error msg :=
  ⟨((read_file_range_spec "notes.txt" "alpha\nbeta\ngamma\n" 2 5).2
      (by decide) (by decide) (by decide)).trans (congrArg Except.ok (by decide)),
   (read_file_range_spec "notes.txt" "alpha\nbeta\ngamma\n" 4 5).1
      (Or.inr (Or.inr (by decide)))⟩

end Weaver
